import Mathlib

/-!
# Zephyr data logger: sampler, bounded message queue, logger

A shallow embedding of `src/main.c`: the configuration constants, the
`sensor_data` record, `read_sensors`, one pass of the loop of
`sensor_thread_entry`, one pass of the loop of `logger_thread_entry`, and the
thread creations of `main`.  The message queue itself (`K_MSGQ_DEFINE`,
`k_msgq_put`, `k_msgq_get`) is a kernel object whose code is not part of
`main.c`; it is modelled from the specification's description of the bounded
channel as a ring buffer with a count.
-/

namespace Datalogger

/-! ## Configuration constants -/

/-- Stack size of the sensor thread (`#define SENSOR_STACK_SIZE 1024`). -/
def SENSOR_STACK_SIZE : Nat := 1024

/-- Stack size of the logger thread (`#define LOGGER_STACK_SIZE 1024`). -/
def LOGGER_STACK_SIZE : Nat := 1024

/-- Priority value passed for the sensor thread (`#define SENSOR_PRIORITY 7`). -/
def SENSOR_PRIORITY : Int := 7

/-- Priority value passed for the logger thread (`#define LOGGER_PRIORITY 8`). -/
def LOGGER_PRIORITY : Int := 8

/-- Number of messages the queue can hold (`#define MSG_QUEUE_SIZE 10`). -/
def MSG_QUEUE_SIZE : Nat := 10

/-- Sampling interval in milliseconds (`#define SAMPLE_INTERVAL_MS 1000`). -/
def SAMPLE_INTERVAL_MS : Nat := 1000

/-! ## 32-bit machine arithmetic -/

/-- The modulus of `uint32_t` arithmetic, 2^32. -/
def UINT32_MOD : Nat := 4294967296

/-- Addition of two `uint32_t` values. -/
def u32_add (a b : Nat) : Nat := (a + b) % UINT32_MOD

/-- Subtraction of two `uint32_t` values (wraps below zero). -/
def u32_sub (a b : Nat) : Nat := (a + (UINT32_MOD - b % UINT32_MOD)) % UINT32_MOD

/-- Conversion of a `uint32_t` bit pattern to `int32_t` (two's complement). -/
def to_int32 (u : Nat) : Int :=
  if u % UINT32_MOD < 2147483648 then ((u % UINT32_MOD : Nat) : Int)
  else ((u % UINT32_MOD : Nat) : Int) - 4294967296

/-! ## The reading record -/

/-- The record `struct sensor_data`: `uint32_t timestamp`, `int32_t temperature`
(milli-degrees C), `int32_t humidity` (milli-percent), `uint32_t sequence`. -/
structure sensor_data where
  timestamp : Nat
  temperature : Int
  humidity : Int
  sequence : Nat
deriving DecidableEq

/-- The all-zero record, the content of a statically allocated slot. -/
def sensor_data.zero : sensor_data :=
  { timestamp := 0, temperature := 0, humidity := 0, sequence := 0 }

/-- The function `read_sensors(data, seq)`.  The three calls of
`k_uptime_get_32()` are the external time source; their results are the
parameters `t1`, `t2`, `t3`, in call order.  The expression
`25000 + (t % 5000) - 2500` mixes `int` constants with a `uint32_t` operand and
is therefore evaluated in `uint32_t`, then stored to an `int32_t` field. -/
def read_sensors (data : sensor_data) (seq t1 t2 t3 : Nat) : sensor_data :=
  let data := { data with timestamp := t1 }
  let data := { data with temperature := to_int32 (u32_sub (u32_add 25000 (t2 % 5000)) 2500) }
  let data := { data with humidity := to_int32 (u32_sub (u32_add 50000 (t3 % 10000)) 5000) }
  { data with sequence := seq }

/-! ## The message queue -/

/-- The errno value Zephyr names `ENOMSG`; `k_msgq_put` with `K_NO_WAIT` on a
full queue returns its negation.  Only its being non-zero matters below. -/
def ENOMSG : Int := 35

/-- Modelled from the spec: the message queue object behind `sensor_msgq`
(created by `K_MSGQ_DEFINE`), whose code is not in `main.c`.  Following the
specification's data model it is a ring buffer of `max_msgs` slots, the index
`read_idx` of the oldest buffered reading, and the count `used_msgs` of buffered
readings.  The queue of blocked threads is a scheduling matter and is not
represented: a receive on an empty queue is a step that does not return. -/
structure k_msgq where
  max_msgs : Nat
  buffer : List sensor_data
  read_idx : Nat
  used_msgs : Nat
deriving DecidableEq

/-- Modelled from the spec: `K_MSGQ_DEFINE(sensor_msgq, sizeof(struct
sensor_data), MSG_QUEUE_SIZE, 4)`, the queue as constructed at start-up: capacity
`MSG_QUEUE_SIZE`, no buffered reading. -/
def sensor_msgq : k_msgq :=
  { max_msgs := MSG_QUEUE_SIZE,
    buffer := List.replicate MSG_QUEUE_SIZE sensor_data.zero,
    read_idx := 0,
    used_msgs := 0 }

/-- Modelled from the spec: `k_msgq_put(q, data, K_NO_WAIT)`, the non-blocking
publish.  If capacity remains the reading is copied into the slot after the
newest buffered reading and the result is `0`; otherwise the result is the
non-zero `-ENOMSG` and the queue is returned as it was. -/
def k_msgq_put (q : k_msgq) (data : sensor_data) : k_msgq × Int :=
  if q.used_msgs < q.max_msgs then
    ({ q with
        buffer := q.buffer.set ((q.read_idx + q.used_msgs) % q.max_msgs) data,
        used_msgs := q.used_msgs + 1 }, 0)
  else
    (q, -ENOMSG)

/-- Modelled from the spec: `k_msgq_get(q, data, K_FOREVER)`, the blocking
receive.  If a reading is buffered the oldest one is removed and returned;
on an empty queue the caller is suspended, which is the result `none` (the call
has not returned and the queue is as it was). -/
def k_msgq_get (q : k_msgq) : Option (k_msgq × sensor_data) :=
  if 0 < q.used_msgs then
    some ({ q with
             read_idx := (q.read_idx + 1) % q.max_msgs,
             used_msgs := q.used_msgs - 1 },
          q.buffer.getD q.read_idx sensor_data.zero)
  else
    none

/-- The buffered readings of a queue, oldest first. -/
def k_msgq.contents (q : k_msgq) : List sensor_data :=
  (List.range q.used_msgs).map
    (fun i => q.buffer.getD ((q.read_idx + i) % q.max_msgs) sensor_data.zero)

/-- Well-formedness of a queue object: as many slots as the capacity, the read
index inside the ring, and the count within the capacity. -/
def k_msgq.wf (q : k_msgq) : Prop :=
  0 < q.max_msgs ∧ q.buffer.length = q.max_msgs ∧ q.read_idx < q.max_msgs ∧
    q.used_msgs ≤ q.max_msgs

instance (q : k_msgq) : Decidable q.wf := by
  unfold k_msgq.wf; infer_instance

/-! ## The two threads -/

/-- What a thread does that is visible outside it: queue calls with their
argument and result, log lines, and sleeps. -/
inductive Action where
  | msgq_put (data : sensor_data) (ret : Int)
  | log_wrn_drop (sample : Nat)
  | msleep (ms : Nat)
  | msgq_get (data : sensor_data) (ret : Int)
  | log_inf_reading (timestamp sequence : Nat) (temp_whole temp_frac hum_whole hum_frac : Int)
deriving DecidableEq

/-- The locals of `sensor_thread_entry` that live across loop passes:
`struct sensor_data data` and `uint32_t sequence`. -/
structure sensor_thread where
  data : sensor_data
  sequence : Nat
deriving DecidableEq

/-- One pass of the `while (1)` loop of `sensor_thread_entry`:
`read_sensors(&data, sequence++)`, then `k_msgq_put(&sensor_msgq, &data,
K_NO_WAIT)`, then the warning `sequence - 1` if the result is non-zero, then
`k_msleep(SAMPLE_INTERVAL_MS)`. -/
def sensor_thread_iteration (t1 t2 t3 : Nat) (st : sensor_thread) (q : k_msgq) :
    sensor_thread × k_msgq × List Action :=
  let data := read_sensors st.data st.sequence t1 t2 t3
  let sequence := u32_add st.sequence 1
  let r := k_msgq_put q data
  let warn := if r.2 ≠ 0 then [Action.log_wrn_drop (u32_sub sequence 1)] else []
  ({ data := data, sequence := sequence }, r.1,
    [Action.msgq_put data r.2] ++ warn ++ [Action.msleep SAMPLE_INTERVAL_MS])

/-- One pass of the `while (1)` loop of `logger_thread_entry`:
`k_msgq_get(&sensor_msgq, &data, K_FOREVER)` and, on result `0`, the log line
with the fields of the reading (C division and remainder truncate).  On an
empty queue the thread stays suspended inside the call: nothing happens. -/
def logger_thread_iteration (q : k_msgq) : k_msgq × List Action :=
  match k_msgq_get q with
  | some (q1, data) =>
      (q1, [Action.msgq_get data 0,
            Action.log_inf_reading data.timestamp data.sequence
              (Int.tdiv data.temperature 1000) (Int.tmod data.temperature 1000)
              (Int.tdiv data.humidity 1000) (Int.tdiv (Int.tmod data.humidity 1000) 10)])
  | none => (q, [])

/-! ## Thread creation in `main` -/

/-- The two thread entry functions. -/
inductive thread_entry where
  | sensor_thread_entry
  | logger_thread_entry
deriving DecidableEq

/-- The arguments of one `k_thread_create` call together with the name set by
`k_thread_name_set`. -/
structure thread_create where
  entry : thread_entry
  stack_size : Nat
  priority : Int
  name : String
deriving DecidableEq

/-- The thread creations performed by `main`, in program order. -/
def main : List thread_create :=
  [ { entry := thread_entry.sensor_thread_entry, stack_size := SENSOR_STACK_SIZE,
      priority := SENSOR_PRIORITY, name := "sensor" },
    { entry := thread_entry.logger_thread_entry, stack_size := LOGGER_STACK_SIZE,
      priority := LOGGER_PRIORITY, name := "logger" } ]

/-- The priority value with which `main` creates the thread running `e`. -/
def created_priority (e : thread_entry) : Option Int :=
  (main.find? (fun t => t.entry = e)).map (fun t => t.priority)

/-- The Zephyr scheduler's ordering of priority values: a numerically smaller
value is the higher priority. -/
def higher_priority (a b : Int) : Prop := a < b

instance (a b : Int) : Decidable (higher_priority a b) := by
  unfold higher_priority; infer_instance

/-! ## Runs of the pipeline -/

/-- A scheduling step of the pipeline: one pass of the sampler loop (with the
three values its time-source reads return), or one pass of the logger loop. -/
inductive Event where
  | sample (t1 t2 t3 : Nat)
  | receive
deriving DecidableEq

/-- The state shared by a run: the sampler's locals and the queue. -/
structure System where
  sensor : sensor_thread
  msgq : k_msgq
deriving DecidableEq

/-- The state at start-up: sequence counter `0`, the queue as constructed.  The
local `data` of the sampler is uninitialised in C; its content is `data0`. -/
def System.init (data0 : sensor_data) : System :=
  { sensor := { data := data0, sequence := 0 }, msgq := sensor_msgq }

/-- One scheduling step and the actions it performs. -/
def step (s : System) : Event → System × List Action
  | Event.sample t1 t2 t3 =>
      let r := sensor_thread_iteration t1 t2 t3 s.sensor s.msgq
      ({ sensor := r.1, msgq := r.2.1 }, r.2.2)
  | Event.receive =>
      let r := logger_thread_iteration s.msgq
      ({ s with msgq := r.1 }, r.2)

/-- One step applied to a state and the trace so far. -/
def exec (st : System × List Action) (e : Event) : System × List Action :=
  ((step st.1 e).1, st.2 ++ (step st.1 e).2)

/-- A run: the events in order from state `s`; the final state and the trace. -/
def run (s : System) (es : List Event) : System × List Action :=
  es.foldl exec (s, [])

/-- The publish attempts of a trace, in order: the reading and the result. -/
def captures (tr : List Action) : List (sensor_data × Int) :=
  tr.filterMap (fun a => match a with
    | Action.msgq_put d r => some (d, r)
    | _ => none)

/-- The readings the logger received, in order. -/
def received (tr : List Action) : List sensor_data :=
  tr.filterMap (fun a => match a with
    | Action.msgq_get d _ => some d
    | _ => none)

/-- The readings whose publish succeeded, in order. -/
def published (tr : List Action) : List sensor_data :=
  ((captures tr).filter (fun c => c.2 = 0)).map Prod.fst

/-- The readings whose publish returned the full result, in order. -/
def dropped (tr : List Action) : List sensor_data :=
  ((captures tr).filter (fun c => c.2 ≠ 0)).map Prod.fst

/-- The drop warnings of a trace, in order. -/
def drop_warnings (tr : List Action) : List Nat :=
  tr.filterMap (fun a => match a with
    | Action.log_wrn_drop n => some n
    | _ => none)

/-- Publishing a list of readings back to back; the final queue and the
results in order. -/
def put_all (q : k_msgq) : List sensor_data → k_msgq × List Int
  | [] => (q, [])
  | r :: rs =>
      let p := k_msgq_put q r
      let rest := put_all p.1 rs
      (rest.1, p.2 :: rest.2)

/-- Receiving `n` times back to back; the final queue and what each call
returned (`none` for a call that found the queue empty). -/
def get_n (q : k_msgq) : Nat → k_msgq × List (Option sensor_data)
  | 0 => (q, [])
  | n + 1 =>
      match k_msgq_get q with
      | some (q1, r) =>
          let rest := get_n q1 n
          (rest.1, some r :: rest.2)
      | none =>
          let rest := get_n q n
          (rest.1, none :: rest.2)

/-- A call on the queue: a non-blocking publish of a reading, or a receive. -/
inductive msgq_op where
  | put (r : sensor_data)
  | get
deriving DecidableEq

/-- The queue after one call (a receive on an empty queue leaves it as it
was: the caller is suspended). -/
def msgq_op.apply (q : k_msgq) : msgq_op → k_msgq
  | msgq_op.put r => (k_msgq_put q r).1
  | msgq_op.get =>
      match k_msgq_get q with
      | some (q1, _) => q1
      | none => q

/-- The queue after a finite sequence of calls. -/
def msgq_ops (q : k_msgq) (ops : List msgq_op) : k_msgq :=
  ops.foldl msgq_op.apply q

/-- The number of sampler passes among the events of a run. -/
def sample_count (es : List Event) : Nat :=
  (es.filter (fun e => e ≠ Event.receive)).length

/-- The well-paced schedule: `n` times a sampler pass followed by a logger
pass, the sampler passes numbered from `k`; pass number `i` reads the uptime
`1000 * i` milliseconds, truncated to 32 bits, at each of its three reads. -/
def paced_run : Nat → Nat → List Event
  | _, 0 => []
  | k, n + 1 =>
      Event.sample ((1000 * k) % UINT32_MOD) ((1000 * k) % UINT32_MOD) ((1000 * k) % UINT32_MOD)
        :: Event.receive :: paced_run (k + 1) n

/-- What holds of the state and trace of every run started in `s0`. -/
structure RunInv (s0 : System) (st : System × List Action) : Prop where
  wf : st.1.msgq.wf
  cap : st.1.msgq.max_msgs = s0.msgq.max_msgs
  seq : st.1.sensor.sequence =
    (s0.sensor.sequence + (captures st.2).length) % UINT32_MOD
  caps_seq : (captures st.2).map (fun c => c.1.sequence) =
    (List.range (captures st.2).length).map (fun k => (s0.sensor.sequence + k) % UINT32_MOD)
  fifo : s0.msgq.contents ++ published st.2 = received st.2 ++ st.1.msgq.contents
  rets : ∀ c ∈ captures st.2, c.2 = 0 ∨ c.2 = -ENOMSG

/-! ## Ring-buffer lemmas -/

theorem mod_of_lt_two_mul (x m : Nat) (h : x < 2 * m) :
    x % m = if x < m then x else x - m := by
  split
  · next hlt => exact Nat.mod_eq_of_lt hlt
  · next hge =>
    rw [Nat.mod_eq_sub_mod (by omega)]
    exact Nat.mod_eq_of_lt (by omega)

theorem ring_index_ne (a i j m : Nat) (ha : a < m) (hij : i < j) (hj : j < m) :
    (a + i) % m ≠ (a + j) % m := by
  rw [mod_of_lt_two_mul (a + i) m (by omega), mod_of_lt_two_mul (a + j) m (by omega)]
  split <;> split <;> omega

theorem ring_index_succ (a i m : Nat) :
    ((a + 1) % m + i) % m = (a + (i + 1)) % m := by
  rw [Nat.add_mod, Nat.mod_mod, ← Nat.add_mod]
  congr 1
  omega

theorem contents_length (q : k_msgq) : q.contents.length = q.used_msgs := by
  simp [k_msgq.contents]

theorem put_full (q : k_msgq) (r : sensor_data) (h : q.max_msgs ≤ q.used_msgs) :
    k_msgq_put q r = (q, -ENOMSG) := by
  unfold k_msgq_put
  rw [if_neg (by omega)]

theorem put_ok (q : k_msgq) (r : sensor_data) (hwf : q.wf) (h : q.used_msgs < q.max_msgs) :
    (k_msgq_put q r).2 = 0 ∧ (k_msgq_put q r).1.wf ∧
      (k_msgq_put q r).1.contents = q.contents ++ [r] ∧
      (k_msgq_put q r).1.max_msgs = q.max_msgs ∧
      (k_msgq_put q r).1.used_msgs = q.used_msgs + 1 := by
  obtain ⟨hm, hlen, hrd, hu⟩ := hwf
  unfold k_msgq_put
  rw [if_pos h]
  refine ⟨rfl, ⟨hm, by simpa using hlen, hrd, by simpa using h⟩, ?_, rfl, rfl⟩
  simp only [k_msgq.contents, List.range_succ, List.map_append, List.map_cons, List.map_nil]
  have hw : (q.read_idx + q.used_msgs) % q.max_msgs < q.buffer.length := by
    rw [hlen]; exact Nat.mod_lt _ hm
  congr 1
  · apply List.map_congr_left
    intro i hi
    have hi2 : i < q.used_msgs := List.mem_range.mp hi
    have hne := ring_index_ne q.read_idx i q.used_msgs q.max_msgs hrd hi2 h
    simp [List.getD_eq_getElem?_getD, List.getElem?_set, Ne.symm hne]
  · simp [List.getD_eq_getElem?_getD, List.getElem?_set, hw]

theorem get_empty (q : k_msgq) (h : q.used_msgs = 0) : k_msgq_get q = none := by
  unfold k_msgq_get
  rw [if_neg (by omega)]

theorem get_ok (q : k_msgq) (hwf : q.wf) (h : 0 < q.used_msgs) :
    ∃ q1 r, k_msgq_get q = some (q1, r) ∧ q1.wf ∧ q.contents = r :: q1.contents ∧
      q1.max_msgs = q.max_msgs ∧ q1.used_msgs + 1 = q.used_msgs := by
  obtain ⟨hm, hlen, hrd, hu⟩ := hwf
  unfold k_msgq_get
  rw [if_pos h]
  refine ⟨_, _, rfl, ⟨hm, hlen, Nat.mod_lt _ hm, ?_⟩, ?_, rfl, ?_⟩
  · show q.used_msgs - 1 ≤ q.max_msgs
    omega
  · obtain ⟨u, hu1⟩ : ∃ u, q.used_msgs = u + 1 := ⟨q.used_msgs - 1, by omega⟩
    simp only [k_msgq.contents, hu1, Nat.add_sub_cancel]
    rw [List.range_succ_eq_map, List.map_cons, List.map_map]
    congr 1
    · simp [Nat.mod_eq_of_lt hrd]
    · apply List.map_congr_left
      intro i _
      simp only [Function.comp, Nat.succ_eq_add_one]
      rw [ring_index_succ]
  · show q.used_msgs - 1 + 1 = q.used_msgs
    omega

theorem sensor_msgq_wf : sensor_msgq.wf := by decide

theorem sensor_msgq_contents : sensor_msgq.contents = [] := by decide

/-! ## Back-to-back publishes and receives -/

theorem put_all_append (q : k_msgq) (a b : List sensor_data) :
    put_all q (a ++ b) =
      ((put_all (put_all q a).1 b).1, (put_all q a).2 ++ (put_all (put_all q a).1 b).2) := by
  induction a generalizing q with
  | nil => simp [put_all]
  | cons r rs ih => simp [put_all, ih]

theorem put_all_ok (rs : List sensor_data) (q : k_msgq) (hwf : q.wf)
    (h : q.used_msgs + rs.length ≤ q.max_msgs) :
    (put_all q rs).2 = List.replicate rs.length 0 ∧ (put_all q rs).1.wf ∧
      (put_all q rs).1.contents = q.contents ++ rs ∧
      (put_all q rs).1.max_msgs = q.max_msgs ∧
      (put_all q rs).1.used_msgs = q.used_msgs + rs.length := by
  induction rs generalizing q with
  | nil => simp [put_all, hwf]
  | cons r rs ih =>
    simp only [List.length_cons] at h
    obtain ⟨h0, hwf1, hc1, hm1, hu1⟩ := put_ok q r hwf (by omega)
    obtain ⟨a, b, c, d, e⟩ := ih (k_msgq_put q r).1 hwf1 (by rw [hm1, hu1]; omega)
    simp only [put_all, List.length_cons, List.replicate_succ]
    refine ⟨by rw [h0, a], b, by rw [c, hc1]; simp, by rw [d, hm1], by rw [e, hu1]; omega⟩

theorem get_n_ok (rs : List sensor_data) (q : k_msgq) (rest : List sensor_data) (hwf : q.wf)
    (h : q.contents = rs ++ rest) :
    (get_n q rs.length).2 = rs.map some ∧ (get_n q rs.length).1.wf ∧
      (get_n q rs.length).1.contents = rest ∧
      (get_n q rs.length).1.max_msgs = q.max_msgs := by
  induction rs generalizing q with
  | nil => simpa [get_n, hwf] using h
  | cons r rs ih =>
    have hpos : 0 < q.used_msgs := by
      rw [← contents_length, h]; simp
    obtain ⟨q1, r1, hget, hwf1, hc, hm, _⟩ := get_ok q hwf hpos
    rw [h] at hc
    simp only [List.cons_append, List.cons.injEq] at hc
    obtain ⟨a, b, c, d⟩ := ih q1 hwf1 hc.2.symm
    simp only [List.length_cons, get_n, hget, List.map_cons]
    exact ⟨by rw [a, hc.1], b, c, by rw [d, hm]⟩

theorem get_n_empty (n : Nat) (q : k_msgq) (h : q.used_msgs = 0) :
    get_n q n = (q, List.replicate n none) := by
  induction n with
  | zero => simp [get_n]
  | succ n ih => simp [get_n, get_empty q h, ih, List.replicate_succ]

/-! ## Single steps of the pipeline -/

theorem u32_sub_add_one (c : Nat) (h : c < UINT32_MOD) : u32_sub (u32_add c 1) 1 = c := by
  unfold u32_sub u32_add UINT32_MOD at *
  omega

theorem read_sensors_sequence (d : sensor_data) (seq t1 t2 t3 : Nat) :
    (read_sensors d seq t1 t2 t3).sequence = seq := rfl

theorem step_sample_ok (s : System) (t1 t2 t3 : Nat)
    (h : (k_msgq_put s.msgq (read_sensors s.sensor.data s.sensor.sequence t1 t2 t3)).2 = 0) :
    step s (Event.sample t1 t2 t3) =
      ({ sensor := { data := read_sensors s.sensor.data s.sensor.sequence t1 t2 t3,
                     sequence := u32_add s.sensor.sequence 1 },
         msgq := (k_msgq_put s.msgq (read_sensors s.sensor.data s.sensor.sequence t1 t2 t3)).1 },
       [Action.msgq_put (read_sensors s.sensor.data s.sensor.sequence t1 t2 t3) 0,
        Action.msleep SAMPLE_INTERVAL_MS]) := by
  simp [step, sensor_thread_iteration, h]

theorem step_sample_full (s : System) (t1 t2 t3 : Nat)
    (h : s.msgq.max_msgs ≤ s.msgq.used_msgs) :
    step s (Event.sample t1 t2 t3) =
      ({ sensor := { data := read_sensors s.sensor.data s.sensor.sequence t1 t2 t3,
                     sequence := u32_add s.sensor.sequence 1 },
         msgq := s.msgq },
       [Action.msgq_put (read_sensors s.sensor.data s.sensor.sequence t1 t2 t3) (-ENOMSG),
        Action.log_wrn_drop (u32_sub (u32_add s.sensor.sequence 1) 1),
        Action.msleep SAMPLE_INTERVAL_MS]) := by
  simp [step, sensor_thread_iteration, put_full _ _ h, ENOMSG]

theorem step_receive_some (s : System) (q1 : k_msgq) (r : sensor_data)
    (h : k_msgq_get s.msgq = some (q1, r)) :
    step s Event.receive =
      ({ s with msgq := q1 },
       [Action.msgq_get r 0,
        Action.log_inf_reading r.timestamp r.sequence
          (Int.tdiv r.temperature 1000) (Int.tmod r.temperature 1000)
          (Int.tdiv r.humidity 1000) (Int.tdiv (Int.tmod r.humidity 1000) 10)]) := by
  simp [step, logger_thread_iteration, h]

theorem step_receive_none (s : System) (h : k_msgq_get s.msgq = none) :
    step s Event.receive = (s, []) := by
  simp [step, logger_thread_iteration, h]

/-! ## Runs -/

theorem foldl_exec (es : List Event) (s : System) (tr : List Action) :
    es.foldl exec (s, tr) = ((run s es).1, tr ++ (run s es).2) := by
  induction es generalizing s tr with
  | nil => simp [run]
  | cons e es ih =>
    simp only [run, List.foldl_cons]
    rw [ih, ih (exec (s, []) e).1 (exec (s, []) e).2]
    simp [exec, List.append_assoc]

theorem run_nil (s : System) : run s [] = (s, []) := rfl

theorem run_append (s : System) (a b : List Event) :
    run s (a ++ b) = ((run (run s a).1 b).1, (run s a).2 ++ (run (run s a).1 b).2) := by
  simp only [run, List.foldl_append]
  exact foldl_exec b _ _

theorem run_snoc (s : System) (es : List Event) (e : Event) :
    run s (es ++ [e]) = exec (run s es) e := by
  simp [run, List.foldl_append]

theorem run_cons (s : System) (e : Event) (es : List Event) :
    run s (e :: es) = ((run (step s e).1 es).1, (step s e).2 ++ (run (step s e).1 es).2) := by
  have h := run_append s [e] es
  simpa [run, exec] using h

theorem captures_append (a b : List Action) : captures (a ++ b) = captures a ++ captures b := by
  simp [captures]

theorem received_append (a b : List Action) : received (a ++ b) = received a ++ received b := by
  simp [received]

theorem published_append (a b : List Action) : published (a ++ b) = published a ++ published b := by
  simp [published, captures_append]

theorem range_map_snoc (c n : Nat) :
    (List.range (n + 1)).map (fun k => (c + k) % UINT32_MOD) =
      (List.range n).map (fun k => (c + k) % UINT32_MOD) ++ [(c + n) % UINT32_MOD] := by
  simp [List.range_succ]

theorem RunInv.init (s0 : System) (hwf : s0.msgq.wf) (hseq : s0.sensor.sequence < UINT32_MOD) :
    RunInv s0 (s0, []) where
  wf := hwf
  cap := rfl
  seq := by simp [captures, Nat.mod_eq_of_lt hseq]
  caps_seq := by simp [captures]
  fifo := by simp [published, received, captures]
  rets := by simp [captures]

theorem RunInv.exec (s0 : System) (st : System × List Action) (e : Event)
    (h : RunInv s0 st) : RunInv s0 (exec st e) := by
  obtain ⟨s, tr⟩ := st
  obtain ⟨hwf, hcap, hseq, hcs, hfifo, hrets⟩ := h
  simp only at hwf hcap hseq hcs hfifo hrets
  cases e with
  | sample t1 t2 t3 =>
    by_cases hfull : s.msgq.used_msgs < s.msgq.max_msgs
    · obtain ⟨h0, hwf1, hc1, hm1, _⟩ :=
        put_ok s.msgq (read_sensors s.sensor.data s.sensor.sequence t1 t2 t3) hwf hfull
      have hstep := step_sample_ok s t1 t2 t3 h0
      simp only [Datalogger.exec, hstep]
      have hcap1 : captures (tr ++ [Action.msgq_put
          (read_sensors s.sensor.data s.sensor.sequence t1 t2 t3) 0,
          Action.msleep SAMPLE_INTERVAL_MS]) = captures tr ++
          [(read_sensors s.sensor.data s.sensor.sequence t1 t2 t3, 0)] := by
        simp [captures]
      refine ⟨hwf1, by rw [hm1, hcap], ?_, ?_, ?_, ?_⟩
      · rw [hcap1]
        simp only [List.length_append, List.length_singleton, u32_add, hseq]
        unfold UINT32_MOD; omega
      · rw [hcap1]
        simp only [List.length_append, List.length_singleton, List.map_append,
          range_map_snoc, hcs, List.map_cons, List.map_nil, read_sensors_sequence, hseq]
      · simp only [hc1, published_append, received_append, ← List.append_assoc, hfifo]
        simp [published, received, captures]
      · intro c hc
        rw [hcap1, List.mem_append] at hc
        rcases hc with hc | hc
        · exact hrets c hc
        · left; simp at hc; rw [hc]
    · have hstep := step_sample_full s t1 t2 t3 (by omega)
      simp only [Datalogger.exec, hstep]
      have hcap1 : captures (tr ++ [Action.msgq_put
          (read_sensors s.sensor.data s.sensor.sequence t1 t2 t3) (-ENOMSG),
          Action.log_wrn_drop (u32_sub (u32_add s.sensor.sequence 1) 1),
          Action.msleep SAMPLE_INTERVAL_MS]) = captures tr ++
          [(read_sensors s.sensor.data s.sensor.sequence t1 t2 t3, -ENOMSG)] := by
        simp [captures]
      refine ⟨hwf, hcap, ?_, ?_, ?_, ?_⟩
      · rw [hcap1]
        simp only [List.length_append, List.length_singleton, u32_add, hseq]
        unfold UINT32_MOD; omega
      · rw [hcap1]
        simp only [List.length_append, List.length_singleton, List.map_append,
          range_map_snoc, hcs, List.map_cons, List.map_nil, read_sensors_sequence, hseq]
      · simp only [published_append, received_append, ← List.append_assoc, hfifo]
        simp [published, received, captures, ENOMSG]
      · intro c hc
        rw [hcap1, List.mem_append] at hc
        rcases hc with hc | hc
        · exact hrets c hc
        · right; simp at hc; rw [hc]
  | receive =>
    by_cases hpos : 0 < s.msgq.used_msgs
    · obtain ⟨q1, r, hget, hwf1, hc, hm, _⟩ := get_ok s.msgq hwf hpos
      have hstep := step_receive_some s q1 r hget
      simp only [Datalogger.exec, hstep]
      refine ⟨hwf1, by rw [hm, hcap], ?_, ?_, ?_, ?_⟩
      · simpa [captures] using hseq
      · simpa [captures] using hcs
      · simp only [published_append, received_append, ← List.append_assoc, hfifo, hc]
        simp [published, received, captures]
      · simpa [captures] using hrets
    · have hstep := step_receive_none s (get_empty _ (by omega))
      simp only [Datalogger.exec, hstep]
      exact ⟨hwf, hcap, by simpa using hseq, by simpa using hcs, by simpa using hfifo,
        by simpa using hrets⟩

theorem run_inv (s0 : System) (hwf : s0.msgq.wf) (hseq : s0.sensor.sequence < UINT32_MOD)
    (es : List Event) : RunInv s0 (run s0 es) := by
  induction es using List.reverseRecOn with
  | nil => exact RunInv.init s0 hwf hseq
  | append_singleton es e ih =>
    rw [run_snoc]
    exact RunInv.exec s0 _ e ih

theorem msgq_op_apply_wf (q : k_msgq) (op : msgq_op) (hwf : q.wf) :
    (msgq_op.apply q op).wf ∧ (msgq_op.apply q op).max_msgs = q.max_msgs := by
  cases op with
  | put r =>
    by_cases h : q.used_msgs < q.max_msgs
    · obtain ⟨_, hwf1, _, hm, _⟩ := put_ok q r hwf h
      exact ⟨hwf1, hm⟩
    · simp [msgq_op.apply, put_full q r (by omega), hwf]
  | get =>
    by_cases h : 0 < q.used_msgs
    · obtain ⟨q1, r, hget, hwf1, _, hm, _⟩ := get_ok q hwf h
      simp [msgq_op.apply, hget, hwf1, hm]
    · simp [msgq_op.apply, get_empty q (by omega), hwf]

theorem msgq_ops_wf (ops : List msgq_op) (q : k_msgq) (hwf : q.wf) :
    (msgq_ops q ops).wf ∧ (msgq_ops q ops).max_msgs = q.max_msgs := by
  induction ops generalizing q with
  | nil => exact ⟨hwf, rfl⟩
  | cons op ops ih =>
    obtain ⟨h1, h2⟩ := msgq_op_apply_wf q op hwf
    obtain ⟨h3, h4⟩ := ih (msgq_op.apply q op) h1
    exact ⟨h3, by rw [← h2, ← h4]; rfl⟩

theorem captures_step_length (s : System) (e : Event) :
    (captures (step s e).2).length = sample_count [e] := by
  cases e with
  | sample t1 t2 t3 =>
    simp only [step, sensor_thread_iteration]
    split <;> simp [captures, sample_count]
  | receive =>
    simp only [step, logger_thread_iteration]
    split <;> simp [captures, sample_count]

theorem sample_count_append (a b : List Event) :
    sample_count (a ++ b) = sample_count a + sample_count b := by
  simp [sample_count]

theorem captures_run_length (s : System) (es : List Event) :
    (captures (run s es).2).length = sample_count es := by
  induction es using List.reverseRecOn with
  | nil => simp [run, captures, sample_count]
  | append_singleton es e ih =>
    rw [run_snoc, sample_count_append, ← ih, ← captures_step_length (run s es).1 e]
    simp [exec, captures_append]

theorem init_wf (d0 : sensor_data) : (System.init d0).msgq.wf := sensor_msgq_wf

theorem init_seq (d0 : sensor_data) : (System.init d0).sensor.sequence < UINT32_MOD := by
  simp [System.init, UINT32_MOD]

theorem captures_step (s : System) (e : Event) :
    (step s e).1.sensor.sequence =
        (s.sensor.sequence + (captures (step s e).2).length) % UINT32_MOD ∨
      ((step s e).1.sensor.sequence = s.sensor.sequence ∧ captures (step s e).2 = []) := by
  cases e with
  | sample t1 t2 t3 =>
    left
    simp only [step, sensor_thread_iteration, u32_add]
    split <;> simp [captures]
  | receive =>
    right
    simp only [step, logger_thread_iteration]
    split <;> simp [captures]

theorem captures_step_seq (s : System) (e : Event) :
    (captures (step s e).2).map (fun c => c.1.sequence) =
      (List.range (captures (step s e).2).length).map (fun k => s.sensor.sequence + k) := by
  cases e with
  | sample t1 t2 t3 =>
    simp only [step, sensor_thread_iteration]
    split <;> simp [captures, read_sensors_sequence, List.range_succ]
  | receive =>
    simp only [step, logger_thread_iteration]
    split <;> simp [captures]

theorem run_seq (s0 : System) (hseq : s0.sensor.sequence < UINT32_MOD) (es : List Event) :
    (run s0 es).1.sensor.sequence =
        (s0.sensor.sequence + (captures (run s0 es).2).length) % UINT32_MOD ∧
      (captures (run s0 es).2).map (fun c => c.1.sequence) =
        (List.range (captures (run s0 es).2).length).map
          (fun k => (s0.sensor.sequence + k) % UINT32_MOD) := by
  induction es using List.reverseRecOn with
  | nil => simp [run, captures, Nat.mod_eq_of_lt hseq]
  | append_singleton es e ih =>
    obtain ⟨ih1, ih2⟩ := ih
    rw [run_snoc]
    have hlen := captures_step_length (run s0 es).1 e
    have hsq := captures_step_seq (run s0 es).1 e
    have hst := captures_step (run s0 es).1 e
    simp only [exec, captures_append, List.length_append, List.map_append]
    cases e with
    | receive =>
      have h0 : captures (step (run s0 es).1 Event.receive).2 = [] := by
        apply List.eq_nil_of_length_eq_zero
        rw [hlen]; rfl
      rcases hst with hst | ⟨hst, _⟩
      · rw [h0] at hst
        simp only [h0, List.length_nil, Nat.add_zero, List.map_nil, List.append_nil]
        refine ⟨?_, ih2⟩
        rw [hst, ih1]
        simp
      · simp only [h0, List.length_nil, Nat.add_zero, List.map_nil, List.append_nil]
        exact ⟨by rw [hst, ih1], ih2⟩
    | sample t1 t2 t3 =>
      have h1 : (captures (step (run s0 es).1 (Event.sample t1 t2 t3)).2).length = 1 := by
        rw [hlen]; rfl
      rw [h1] at hsq
      rcases hst with hst | ⟨_, hst⟩
      · rw [h1] at hst
        rw [h1, hsq, ih2, range_map_snoc]
        refine ⟨?_, ?_⟩
        · rw [hst, ih1]
          unfold UINT32_MOD; omega
        · simp [ih1, List.range_succ]
      · rw [hst] at h1
        simp at h1

theorem filter_adjacent {α : Type} (p : α → Bool) (l : List α) (i : Nat) (x y : α)
    (hx : (l.filter p)[i]? = some x) (hy : (l.filter p)[i + 1]? = some y) :
    ∃ l1 mid l2, l = l1 ++ [x] ++ mid ++ [y] ++ l2 ∧ (∀ c ∈ mid, p c = false) ∧
      p x = true ∧ p y = true := by
  induction l generalizing i with
  | nil => simp at hx
  | cons a l ih =>
    by_cases hpa : p a = true
    · rw [List.filter_cons_of_pos hpa] at hx hy
      cases i with
      | zero =>
        simp only [List.getElem?_cons_zero, Option.some.injEq] at hx
        simp only [Nat.zero_add, List.getElem?_cons_succ] at hy
        have hcons : ∃ rest, l.filter p = y :: rest := by
          match hf : l.filter p with
          | [] => rw [hf] at hy; simp at hy
          | z :: rest =>
            rw [hf] at hy
            simp only [List.getElem?_cons_zero, Option.some.injEq] at hy
            exact ⟨rest, by rw [hy]⟩
        obtain ⟨rest, hrest⟩ := hcons
        obtain ⟨m1, m2, hl, hm1, hpy, _⟩ := List.filter_eq_cons_iff.mp hrest
        refine ⟨[], m1, m2, ?_, ?_, by rw [← hx]; exact hpa, hpy⟩
        · rw [hl, hx]; simp
        · intro c hc
          simpa using hm1 c hc
      | succ j =>
        simp only [List.getElem?_cons_succ] at hx hy
        obtain ⟨l1, mid, l2, hl, hmid, hpx, hpy⟩ := ih j hx hy
        exact ⟨a :: l1, mid, l2, by rw [hl]; simp, hmid, hpx, hpy⟩
    · rw [List.filter_cons_of_neg hpa] at hx hy
      obtain ⟨l1, mid, l2, hl, hmid, hpx, hpy⟩ := ih i hx hy
      exact ⟨a :: l1, mid, l2, by rw [hl]; simp, hmid, hpx, hpy⟩

theorem captures_seq_index (s0 : System) (hseq : s0.sensor.sequence < UINT32_MOD)
    (es : List Event) (k : Nat) (c : sensor_data × Int)
    (hc : (captures (run s0 es).2)[k]? = some c) :
    c.1.sequence = (s0.sensor.sequence + k) % UINT32_MOD := by
  have hmap := (run_seq s0 hseq es).2
  have h1 : ((captures (run s0 es).2).map (fun c => c.1.sequence))[k]? =
      some c.1.sequence := by
    rw [List.getElem?_map, hc]; rfl
  rw [hmap, List.getElem?_map] at h1
  have hklt : k < (captures (run s0 es).2).length := (List.getElem?_eq_some_iff.mp hc).1
  rw [List.getElem?_range hklt] at h1
  simpa using h1.symm

theorem getElem?_decomp {α : Type} (l1 mid l2 : List α) (x y : α) :
    (l1 ++ [x] ++ mid ++ [y] ++ l2)[l1.length]? = some x ∧
      (l1 ++ [x] ++ mid ++ [y] ++ l2)[l1.length + 1 + mid.length]? = some y := by
  constructor
  · simp only [List.append_assoc]
    rw [List.getElem?_append_right (Nat.le_refl _)]
    simp
  · have h : l1 ++ [x] ++ mid ++ [y] ++ l2 = (l1 ++ [x] ++ mid) ++ ([y] ++ l2) := by simp
    have hlen : (l1 ++ [x] ++ mid).length = l1.length + 1 + mid.length := by
      simp only [List.length_append, List.length_singleton]
    rw [h, List.getElem?_append_right (by rw [hlen]), hlen, Nat.sub_self]
    simp

/-! ## The well-paced schedule -/

theorem paced_run_add (n m k : Nat) :
    paced_run k (n + m) = paced_run k n ++ paced_run (k + n) m := by
  induction n generalizing k with
  | zero => simp [paced_run]
  | succ n ih =>
    rw [Nat.add_right_comm n 1 m]
    simp only [paced_run, ih, List.cons_append]
    rw [Nat.add_assoc k 1 n, Nat.add_comm 1 n]

theorem sample_count_paced (n k : Nat) : sample_count (paced_run k n) = n := by
  induction n generalizing k with
  | zero => simp [paced_run, sample_count]
  | succ n ih =>
    have hcons : paced_run k (n + 1) =
        [Event.sample ((1000 * k) % UINT32_MOD) ((1000 * k) % UINT32_MOD)
          ((1000 * k) % UINT32_MOD), Event.receive] ++ paced_run (k + 1) n := by
      simp [paced_run]
    rw [hcons, sample_count_append, ih (k + 1)]
    simp [sample_count]
    omega

theorem contents_of_empty (q : k_msgq) (h : q.used_msgs = 0) : q.contents = [] := by
  simp [k_msgq.contents, h]

theorem run_pair (s : System) (t1 t2 t3 : Nat) (hwf : s.msgq.wf) (h0 : s.msgq.used_msgs = 0) :
    (run s [Event.sample t1 t2 t3, Event.receive]).1.msgq.used_msgs = 0 ∧
      (run s [Event.sample t1 t2 t3, Event.receive]).1.sensor.sequence =
        u32_add s.sensor.sequence 1 ∧
      received (run s [Event.sample t1 t2 t3, Event.receive]).2 =
        [read_sensors s.sensor.data s.sensor.sequence t1 t2 t3] := by
  obtain ⟨hret, hwf1, hc1, _, hu1⟩ :=
    put_ok s.msgq (read_sensors s.sensor.data s.sensor.sequence t1 t2 t3) hwf
      (by rw [h0]; exact hwf.1)
  rw [contents_of_empty _ h0, List.nil_append] at hc1
  obtain ⟨q2, r, hget, _, hc2, _, hu2⟩ := get_ok _ hwf1 (by rw [hu1]; omega)
  rw [hc1] at hc2
  simp only [List.cons.injEq] at hc2
  have hq2 : q2.used_msgs = 0 := by
    rw [← contents_length, ← hc2.2]; rfl
  have hs1 := step_sample_ok s t1 t2 t3 hret
  rw [run_cons, hs1, run_cons]
  simp only [run_nil, List.append_nil]
  rw [step_receive_some _ q2 r hget]
  refine ⟨hq2, rfl, ?_⟩
  simp [received, hc2.1]

theorem paced_state (n k : Nat) (s : System) (hwf : s.msgq.wf) (h0 : s.msgq.used_msgs = 0)
    (hseq : s.sensor.sequence < UINT32_MOD) :
    (run s (paced_run k n)).1.msgq.wf ∧ (run s (paced_run k n)).1.msgq.used_msgs = 0 ∧
      (run s (paced_run k n)).1.sensor.sequence = (s.sensor.sequence + n) % UINT32_MOD := by
  refine ⟨(run_inv s hwf hseq _).wf, ?_, ?_⟩
  · induction n generalizing k s with
    | zero => simpa [paced_run, run] using h0
    | succ n ih =>
      have hcons : paced_run k (n + 1) =
          [Event.sample ((1000 * k) % UINT32_MOD) ((1000 * k) % UINT32_MOD)
            ((1000 * k) % UINT32_MOD), Event.receive] ++ paced_run (k + 1) n := by
        simp [paced_run]
      rw [hcons, run_append]
      obtain ⟨hu, hsq, _⟩ := run_pair s ((1000 * k) % UINT32_MOD) ((1000 * k) % UINT32_MOD)
        ((1000 * k) % UINT32_MOD) hwf h0
      refine ih (k + 1) _ (run_inv s hwf hseq _).wf hu ?_
      rw [hsq]
      exact Nat.mod_lt _ (by decide)
  · have h := (run_seq s hseq (paced_run k n)).1
    rw [captures_run_length, sample_count_paced] at h
    exact h

theorem paced_wrap (n k : Nat) (s : System) (hwf : s.msgq.wf) (h0 : s.msgq.used_msgs = 0)
    (hseq : s.sensor.sequence < UINT32_MOD)
    (hn : (s.sensor.sequence + n) % UINT32_MOD = 4294967295) :
    ¬ List.Sorted (fun x y => x ≤ y)
      ((received (run s (paced_run k (n + 2))).2).map sensor_data.sequence) := by
  obtain ⟨hwf1, hu1, hs1⟩ := paced_state n k s hwf h0 hseq
  rw [hn] at hs1
  have htwo : paced_run (k + n) 2 =
      [Event.sample ((1000 * (k + n)) % UINT32_MOD) ((1000 * (k + n)) % UINT32_MOD)
        ((1000 * (k + n)) % UINT32_MOD), Event.receive] ++
      [Event.sample ((1000 * (k + n + 1)) % UINT32_MOD) ((1000 * (k + n + 1)) % UINT32_MOD)
        ((1000 * (k + n + 1)) % UINT32_MOD), Event.receive] := by
    simp [paced_run]
  rw [paced_run_add, run_append, htwo, run_append]
  generalize run s (paced_run k n) = st1 at hwf1 hu1 hs1
  obtain ⟨hu2, hs2, hr2⟩ := run_pair st1.1 ((1000 * (k + n)) % UINT32_MOD)
    ((1000 * (k + n)) % UINT32_MOD) ((1000 * (k + n)) % UINT32_MOD) hwf1 hu1
  have hwf2 := (run_inv st1.1 hwf1 (by rw [hs1]; decide)
    [Event.sample ((1000 * (k + n)) % UINT32_MOD) ((1000 * (k + n)) % UINT32_MOD)
      ((1000 * (k + n)) % UINT32_MOD), Event.receive]).wf
  obtain ⟨_, _, hr3⟩ := run_pair _ ((1000 * (k + n + 1)) % UINT32_MOD)
    ((1000 * (k + n + 1)) % UINT32_MOD) ((1000 * (k + n + 1)) % UINT32_MOD) hwf2 hu2
  simp only [received_append, hr2, hr3, List.map_append, List.map_cons, List.map_nil,
    read_sensors_sequence, hs2, hs1]
  intro hsorted
  have h2 := (List.pairwise_append.mp hsorted).2.1
  simp [u32_add, UINT32_MOD] at h2

theorem later_captures_differ (s : System) (c0 : Nat)
    (hs : s.sensor.sequence = u32_add c0 1) (es : List Event)
    (hcount : sample_count es < UINT32_MOD) :
    ∀ c ∈ captures (run s es).2, c.1.sequence ≠ c0 := by
  intro c hc
  have hs1 : s.sensor.sequence < UINT32_MOD := by
    rw [hs]
    exact Nat.mod_lt _ (by decide)
  obtain ⟨k, hk⟩ := List.getElem?_of_mem hc
  have hklt : k < sample_count es := by
    rw [← captures_run_length s es]
    exact (List.getElem?_eq_some_iff.mp hk).1
  rw [captures_seq_index s hs1 es k c hk, hs]
  unfold u32_add UINT32_MOD at *
  omega

/-! ## The claims -/

/-- C1: on a queue of capacity `MSG_QUEUE_SIZE` that holds exactly 10 readings,
the non-blocking publish of any reading returns the non-zero full result
`-ENOMSG` and returns the queue unchanged: same buffered readings in the same
order, same count. -/
theorem C1_put_on_full_queue (q : k_msgq) (r : sensor_data)
    (hcap : q.max_msgs = MSG_QUEUE_SIZE) (hfull : q.used_msgs = 10) :
    (k_msgq_put q r).2 = -ENOMSG ∧ (k_msgq_put q r).2 ≠ 0 ∧ (k_msgq_put q r).1 = q ∧
      (k_msgq_put q r).1.contents = q.contents ∧
      (k_msgq_put q r).1.used_msgs = q.used_msgs := by
  have h := put_full q r (by rw [hcap, hfull]; decide)
  rw [h]
  exact ⟨rfl, by simp [ENOMSG], rfl, rfl, rfl⟩

theorem C1_put_on_full_queue_witness :
    (put_all sensor_msgq (List.replicate 10 sensor_data.zero)).1.max_msgs = MSG_QUEUE_SIZE ∧
    (put_all sensor_msgq (List.replicate 10 sensor_data.zero)).1.used_msgs = 10 ∧
    (k_msgq_put (put_all sensor_msgq (List.replicate 10 sensor_data.zero)).1
        { timestamp := 11000, temperature := 23500, humidity := 46000, sequence := 10 }).2
      = -ENOMSG :=
  ⟨by decide, by decide,
    (C1_put_on_full_queue (put_all sensor_msgq (List.replicate 10 sensor_data.zero)).1
      { timestamp := 11000, temperature := 23500, humidity := 46000, sequence := 10 }
      (by decide) (by decide)).1⟩

/-- C2: for every list of at most 10 readings, publishing them back to back
into the queue as constructed succeeds each time, and as many receives then
return exactly those readings (all four fields equal) in publish order and
leave the queue empty. -/
theorem C2_fifo_roundtrip (rs : List sensor_data) (h : rs.length ≤ 10) :
    (put_all sensor_msgq rs).2 = List.replicate rs.length 0 ∧
      (get_n (put_all sensor_msgq rs).1 rs.length).2 = rs.map some ∧
      (get_n (put_all sensor_msgq rs).1 rs.length).1.contents = [] ∧
      (get_n (put_all sensor_msgq rs).1 rs.length).1.used_msgs = 0 := by
  obtain ⟨hret, hwf, hc, _, _⟩ := put_all_ok rs sensor_msgq sensor_msgq_wf
    (by simpa [sensor_msgq, MSG_QUEUE_SIZE] using h)
  rw [sensor_msgq_contents, List.nil_append] at hc
  obtain ⟨a, _, c, _⟩ := get_n_ok rs (put_all sensor_msgq rs).1 [] hwf (by simpa using hc)
  refine ⟨hret, a, c, ?_⟩
  rw [← contents_length, c]
  rfl

theorem C2_fifo_roundtrip_witness :
    ([{ timestamp := 0, temperature := 22500, humidity := 45000, sequence := 0 },
      { timestamp := 1000, temperature := 23500, humidity := 46000, sequence := 1 }] :
      List sensor_data).length ≤ 10 ∧
    (get_n (put_all sensor_msgq
      [{ timestamp := 0, temperature := 22500, humidity := 45000, sequence := 0 },
       { timestamp := 1000, temperature := 23500, humidity := 46000, sequence := 1 }]).1 2).2 =
      [some { timestamp := 0, temperature := 22500, humidity := 45000, sequence := 0 },
       some { timestamp := 1000, temperature := 23500, humidity := 46000, sequence := 1 }] :=
  ⟨by decide,
    (C2_fifo_roundtrip
      [{ timestamp := 0, temperature := 22500, humidity := 45000, sequence := 0 },
       { timestamp := 1000, temperature := 23500, humidity := 46000, sequence := 1 }]
      (by decide)).2.1⟩

/-- C3: in every state reached from the queue as constructed by a finite
sequence of publishes and receives, the count of buffered readings is at least
0 and at most the capacity `MSG_QUEUE_SIZE = 10`, the capacity is still
`MSG_QUEUE_SIZE`, and the count is the number of buffered readings. -/
theorem C3_capacity_invariant (ops : List msgq_op) :
    0 ≤ (msgq_ops sensor_msgq ops).used_msgs ∧
      (msgq_ops sensor_msgq ops).used_msgs ≤ MSG_QUEUE_SIZE ∧
      (msgq_ops sensor_msgq ops).max_msgs = MSG_QUEUE_SIZE ∧
      MSG_QUEUE_SIZE = 10 ∧
      (msgq_ops sensor_msgq ops).contents.length = (msgq_ops sensor_msgq ops).used_msgs := by
  obtain ⟨hwf, hm⟩ := msgq_ops_wf ops sensor_msgq sensor_msgq_wf
  have hm2 : (msgq_ops sensor_msgq ops).max_msgs = MSG_QUEUE_SIZE := hm
  refine ⟨Nat.zero_le _, ?_, hm2, rfl, contents_length _⟩
  rw [← hm2]
  exact hwf.2.2.2

/-- C4: for every list of 11 readings published back to back into the queue as
constructed, publishes 1 to 10 return success and the 11th returns the full
result; the queue then holds the first 10 readings, 10 receives return them in
publish order and empty the queue, and no further receive returns anything, so
the 11th reading is never returned. -/
theorem C4_eleven_publishes (rs : List sensor_data) (h : rs.length = 11) :
    (put_all sensor_msgq rs).2 = List.replicate 10 0 ++ [-ENOMSG] ∧
      (put_all sensor_msgq rs).1.contents = rs.take 10 ∧
      (get_n (put_all sensor_msgq rs).1 10).2 = (rs.take 10).map some ∧
      (get_n (put_all sensor_msgq rs).1 10).1.contents = [] ∧
      ∀ n, (get_n (get_n (put_all sensor_msgq rs).1 10).1 n).2 = List.replicate n none := by
  have hlen : (rs.take 10).length = 10 := by simp [h]
  obtain ⟨x, hx⟩ : ∃ x, rs.drop 10 = [x] := by
    have hd : (rs.drop 10).length = 1 := by simp [h]
    match hdr : rs.drop 10, hd with
    | [x], _ => exact ⟨x, rfl⟩
  have hsplit : rs = rs.take 10 ++ [x] := by rw [← hx, List.take_append_drop]
  obtain ⟨hret, hwf, hc, hm, hu⟩ := put_all_ok (rs.take 10) sensor_msgq sensor_msgq_wf
    (by rw [hlen]; decide)
  rw [sensor_msgq_contents, List.nil_append] at hc
  rw [hlen] at hret hu
  have hfull : put_all (put_all sensor_msgq (rs.take 10)).1 [x] =
      ((put_all sensor_msgq (rs.take 10)).1, [-ENOMSG]) := by
    simp only [put_all]
    rw [put_full _ x (by rw [hm, hu]; decide)]
  have hput : put_all sensor_msgq rs =
      ((put_all sensor_msgq (rs.take 10)).1, List.replicate 10 0 ++ [-ENOMSG]) := by
    conv_lhs => rw [hsplit]
    rw [put_all_append, hfull, hret]
  obtain ⟨a, _, c, _⟩ := get_n_ok (rs.take 10) (put_all sensor_msgq (rs.take 10)).1 [] hwf
    (by simpa using hc)
  rw [hlen] at a c
  rw [hput]
  refine ⟨rfl, hc, a, c, ?_⟩
  intro n
  rw [get_n_empty n _ (by rw [← contents_length, c]; rfl)]

theorem C4_eleven_publishes_witness :
    ((List.range 11).map (fun k =>
        ({ timestamp := 1000 * k, temperature := 22500 + 1000 * (k % 5),
           humidity := 45000 + 1000 * (k % 10), sequence := k } : sensor_data))).length = 11 ∧
    (put_all sensor_msgq ((List.range 11).map (fun k =>
        ({ timestamp := 1000 * k, temperature := 22500 + 1000 * (k % 5),
           humidity := 45000 + 1000 * (k % 10), sequence := k } : sensor_data)))).2 =
      List.replicate 10 0 ++ [-ENOMSG] :=
  ⟨by decide,
    (C4_eleven_publishes ((List.range 11).map (fun k =>
        ({ timestamp := 1000 * k, temperature := 22500 + 1000 * (k % 5),
           humidity := 45000 + 1000 * (k % 10), sequence := k } : sensor_data)))
      (by decide)).1⟩

/-- C5: in every run from start-up, whatever the interleaving with the logger
and whatever the result of each publish, the readings captured by the sampler
carry the sequence numbers 0, 1, 2, ... modulo 2^32: there is one capture per
sampler pass, capture number `k` (from 0) has sequence `k mod 2^32`, the first
has sequence 0, and each next one has the previous sequence plus 1 in
`uint32_t` arithmetic. -/
theorem C5_sequence_numbering (d0 : sensor_data) (es : List Event) :
    (captures (run (System.init d0) es).2).map (fun c => c.1.sequence) =
        (List.range (sample_count es)).map (fun k => k % UINT32_MOD) ∧
      (captures (run (System.init d0) es).2).length = sample_count es ∧
      (∀ k c, (captures (run (System.init d0) es).2)[k]? = some c →
        c.1.sequence = k % UINT32_MOD) ∧
      (∀ c, (captures (run (System.init d0) es).2)[0]? = some c → c.1.sequence = 0) ∧
      (∀ k c c2, (captures (run (System.init d0) es).2)[k]? = some c →
        (captures (run (System.init d0) es).2)[k + 1]? = some c2 →
        c2.1.sequence = u32_add c.1.sequence 1) := by
  have hlen := captures_run_length (System.init d0) es
  have hmap : (captures (run (System.init d0) es).2).map (fun c => c.1.sequence) =
      (List.range (sample_count es)).map (fun k => k % UINT32_MOD) := by
    have h := (run_seq (System.init d0) (init_seq d0) es).2
    rw [hlen] at h
    simpa [System.init] using h
  have hk : ∀ k c, (captures (run (System.init d0) es).2)[k]? = some c →
      c.1.sequence = k % UINT32_MOD := by
    intro k c hc
    have h := captures_seq_index (System.init d0) (init_seq d0) es k c hc
    simpa [System.init] using h
  refine ⟨hmap, hlen, hk, ?_, ?_⟩
  · intro c hc
    simpa using hk 0 c hc
  · intro k c c2 hc hc2
    rw [hk k c hc, hk (k + 1) c2 hc2]
    unfold u32_add UINT32_MOD
    omega

theorem C5_sequence_numbering_witness :
    (captures (run (System.init sensor_data.zero)
        [Event.sample 0 0 0, Event.receive, Event.sample 1000 1000 1000,
         Event.sample 2000 2000 2000]).2).map (fun c => c.1.sequence) =
      (List.range (sample_count
        [Event.sample 0 0 0, Event.receive, Event.sample 1000 1000 1000,
         Event.sample 2000 2000 2000])).map (fun k => k % UINT32_MOD) :=
  (C5_sequence_numbering sensor_data.zero
    [Event.sample 0 0 0, Event.receive, Event.sample 1000 1000 1000,
     Event.sample 2000 2000 2000]).1

/-- C6 as stated fails: with the priority values `main` passes to
`k_thread_create` and the Zephyr ordering (smaller value is higher priority),
the logger thread's priority is not higher than the sensor thread's. -/
theorem C6_logger_not_higher :
    ¬ ∃ pl ps, created_priority thread_entry.logger_thread_entry = some pl ∧
      created_priority thread_entry.sensor_thread_entry = some ps ∧
      higher_priority pl ps := by
  rintro ⟨pl, ps, hl, hs, h⟩
  have hl2 : created_priority thread_entry.logger_thread_entry = some LOGGER_PRIORITY := by
    decide
  have hs2 : created_priority thread_entry.sensor_thread_entry = some SENSOR_PRIORITY := by
    decide
  rw [hl2] at hl
  rw [hs2] at hs
  cases hl
  cases hs
  revert h
  decide

/-- C6 amended: `main` creates the sensor thread with priority value
`SENSOR_PRIORITY = 7` and the logger thread with `LOGGER_PRIORITY = 8`; in the
Zephyr ordering the sensor thread (Sampler Unit) therefore has the strictly
higher priority of the two, and the logger thread (Consumer Unit) the lower. -/
theorem C6_sensor_higher_priority :
    created_priority thread_entry.sensor_thread_entry = some SENSOR_PRIORITY ∧
      created_priority thread_entry.logger_thread_entry = some LOGGER_PRIORITY ∧
      SENSOR_PRIORITY = 7 ∧ LOGGER_PRIORITY = 8 ∧
      higher_priority SENSOR_PRIORITY LOGGER_PRIORITY ∧
      ¬ higher_priority LOGGER_PRIORITY SENSOR_PRIORITY := by
  decide

/-- C9: for every three uptime values (the bound 2^32 on the second and third
is not even needed) and every `seq`, the reading
written by `read_sensors` has temperature within 20000..30000 and humidity
within 40000..60000; the `uint32_t` expressions do not wrap and convert to
`int32_t` unchanged, so the fields equal `25000 + t2 % 5000 - 2500` and
`50000 + t3 % 10000 - 5000` as integers; the sequence field is `seq` and the
timestamp is the first uptime value. -/
theorem C9_read_sensors_ranges (d : sensor_data) (seq t1 t2 t3 : Nat)
    (h1 : t1 < UINT32_MOD) :
    20000 ≤ (read_sensors d seq t1 t2 t3).temperature ∧
      (read_sensors d seq t1 t2 t3).temperature ≤ 30000 ∧
      40000 ≤ (read_sensors d seq t1 t2 t3).humidity ∧
      (read_sensors d seq t1 t2 t3).humidity ≤ 60000 ∧
      (read_sensors d seq t1 t2 t3).temperature = 25000 + ((t2 % 5000 : Nat) : Int) - 2500 ∧
      (read_sensors d seq t1 t2 t3).humidity = 50000 + ((t3 % 10000 : Nat) : Int) - 5000 ∧
      (read_sensors d seq t1 t2 t3).sequence = seq ∧
      (read_sensors d seq t1 t2 t3).timestamp = t1 ∧
      (read_sensors d seq t1 t2 t3).timestamp < UINT32_MOD := by
  have ht : (read_sensors d seq t1 t2 t3).temperature =
      25000 + ((t2 % 5000 : Nat) : Int) - 2500 := by
    simp only [read_sensors, to_int32, u32_sub, u32_add, UINT32_MOD]
    split <;> omega
  have hh : (read_sensors d seq t1 t2 t3).humidity =
      50000 + ((t3 % 10000 : Nat) : Int) - 5000 := by
    simp only [read_sensors, to_int32, u32_sub, u32_add, UINT32_MOD]
    split <;> omega
  refine ⟨?_, ?_, ?_, ?_, ht, hh, rfl, rfl, h1⟩
  · rw [ht]; omega
  · rw [ht]; omega
  · rw [hh]; omega
  · rw [hh]; omega

theorem C9_read_sensors_ranges_witness :
    4294967295 < UINT32_MOD ∧
    (read_sensors sensor_data.zero 7 4294967295 4999 4294967295).temperature ≤ 30000 :=
  ⟨by decide,
    (C9_read_sensors_ranges sensor_data.zero 7 4294967295 4999 4294967295 (by decide)).2.1⟩

/-- C10: whenever the publish of a sampler pass returns a non-zero result, the
pass logs exactly one drop warning and its sample number, `sequence - 1` after
the post-increment in `uint32_t` arithmetic, is the sequence field of the
reading just dropped; this holds for every counter value, the one that wraps
from 2^32 - 1 to 0 included. -/
theorem C10_drop_warning_number (st : sensor_thread) (q : k_msgq) (t1 t2 t3 : Nat)
    (hseq : st.sequence < UINT32_MOD)
    (hfull : (k_msgq_put q (read_sensors st.data st.sequence t1 t2 t3)).2 ≠ 0) :
    (sensor_thread_iteration t1 t2 t3 st q).2.2 =
        [Action.msgq_put (read_sensors st.data st.sequence t1 t2 t3)
           (k_msgq_put q (read_sensors st.data st.sequence t1 t2 t3)).2,
         Action.log_wrn_drop (read_sensors st.data st.sequence t1 t2 t3).sequence,
         Action.msleep SAMPLE_INTERVAL_MS] ∧
      drop_warnings (sensor_thread_iteration t1 t2 t3 st q).2.2 =
        (dropped (sensor_thread_iteration t1 t2 t3 st q).2.2).map sensor_data.sequence ∧
      dropped (sensor_thread_iteration t1 t2 t3 st q).2.2 =
        [read_sensors st.data st.sequence t1 t2 t3] ∧
      (sensor_thread_iteration t1 t2 t3 st q).1.sequence = u32_add st.sequence 1 ∧
      (st.sequence = 4294967295 → (sensor_thread_iteration t1 t2 t3 st q).1.sequence = 0 ∧
        drop_warnings (sensor_thread_iteration t1 t2 t3 st q).2.2 = [4294967295]) := by
  have htr : (sensor_thread_iteration t1 t2 t3 st q).2.2 =
      [Action.msgq_put (read_sensors st.data st.sequence t1 t2 t3)
         (k_msgq_put q (read_sensors st.data st.sequence t1 t2 t3)).2,
       Action.log_wrn_drop (read_sensors st.data st.sequence t1 t2 t3).sequence,
       Action.msleep SAMPLE_INTERVAL_MS] := by
    simp only [sensor_thread_iteration, if_pos hfull, read_sensors_sequence,
      u32_sub_add_one st.sequence hseq]
    rfl
  refine ⟨htr, ?_, ?_, rfl, ?_⟩
  · rw [htr]
    simp [drop_warnings, dropped, captures, hfull]
  · rw [htr]
    simp [dropped, captures, hfull]
  · intro h
    rw [htr]
    simp [drop_warnings, read_sensors_sequence, h, sensor_thread_iteration, u32_add, UINT32_MOD]

theorem C10_drop_warning_number_witness :
    (4294967295 : Nat) < UINT32_MOD ∧
    (k_msgq_put (put_all sensor_msgq (List.replicate 10 sensor_data.zero)).1
      (read_sensors sensor_data.zero 4294967295 5000 5000 5000)).2 ≠ 0 ∧
    drop_warnings (sensor_thread_iteration 5000 5000 5000
      { data := sensor_data.zero, sequence := 4294967295 }
      (put_all sensor_msgq (List.replicate 10 sensor_data.zero)).1).2.2 = [4294967295] :=
  ⟨by decide, by decide,
    ((C10_drop_warning_number { data := sensor_data.zero, sequence := 4294967295 }
      (put_all sensor_msgq (List.replicate 10 sensor_data.zero)).1 5000 5000 5000
      (by decide) (by decide)).2.2.2.2 rfl).2⟩

/-- C7 as stated fails: in the run of 2^32 + 1 sampler passes, each followed by
a logger pass, every reading is received and none is dropped, yet the received
sequence values are not monotonically non-decreasing: the counter wraps from
2^32 - 1 to 0. -/
theorem C7_wrap_not_monotone :
    ¬ List.Sorted (fun x y => x ≤ y)
      ((received (run (System.init sensor_data.zero) (paced_run 0 4294967297)).2).map
        sensor_data.sequence) :=
  paced_wrap 4294967295 0 (System.init sensor_data.zero) (init_wf _) rfl (init_seq _) rfl

/-- C7 amended: in every run from start-up the readings received so far followed
by the readings still buffered are exactly the successfully published readings
in publish order; any two consecutively received readings `a`, `b` are separated
in capture order only by dropped readings, and `b.sequence` is
`a.sequence + 1 + (number of readings dropped between them)` modulo 2^32, so the
two differ by exactly 1 (modulo 2^32) when nothing was dropped between them.  If
the run has at most 2^32 sampler passes, this equation holds without the
modulus and the received sequence values are strictly increasing, hence
monotonically non-decreasing. -/
theorem C7_received_sequences (d0 : sensor_data) (es : List Event) :
    published (run (System.init d0) es).2 =
        received (run (System.init d0) es).2 ++ (run (System.init d0) es).1.msgq.contents ∧
      (∀ i a b, (received (run (System.init d0) es).2)[i]? = some a →
        (received (run (System.init d0) es).2)[i + 1]? = some b →
        ∃ l1 mid l2,
          captures (run (System.init d0) es).2 = l1 ++ [(a, 0)] ++ mid ++ [(b, 0)] ++ l2 ∧
          (∀ c ∈ mid, c.2 ≠ 0) ∧
          b.sequence = (a.sequence + 1 + mid.length) % UINT32_MOD ∧
          (mid = [] → b.sequence = u32_add a.sequence 1) ∧
          (sample_count es ≤ UINT32_MOD → b.sequence = a.sequence + 1 + mid.length)) ∧
      (sample_count es ≤ UINT32_MOD →
        List.Sorted (fun x y => x < y)
          ((received (run (System.init d0) es).2).map sensor_data.sequence) ∧
        List.Sorted (fun x y => x ≤ y)
          ((received (run (System.init d0) es).2).map sensor_data.sequence)) := by
  have hinv := run_inv (System.init d0) (init_wf d0) (init_seq d0) es
  have hlen := captures_run_length (System.init d0) es
  have hpub : published (run (System.init d0) es).2 =
      received (run (System.init d0) es).2 ++ (run (System.init d0) es).1.msgq.contents := by
    have h := hinv.fifo
    rw [show (System.init d0).msgq.contents = [] from sensor_msgq_contents,
      List.nil_append] at h
    exact h
  refine ⟨hpub, ?_, ?_⟩
  · intro i a b ha hb
    have hia : i < (received (run (System.init d0) es).2).length :=
      (List.getElem?_eq_some_iff.mp ha).1
    have hib : i + 1 < (received (run (System.init d0) es).2).length :=
      (List.getElem?_eq_some_iff.mp hb).1
    have hpa : (published (run (System.init d0) es).2)[i]? = some a := by
      rw [hpub, List.getElem?_append_left hia]; exact ha
    have hpb : (published (run (System.init d0) es).2)[i + 1]? = some b := by
      rw [hpub, List.getElem?_append_left hib]; exact hb
    simp only [published, List.getElem?_map, Option.map_eq_some'] at hpa hpb
    obtain ⟨ca, hca, hca1⟩ := hpa
    obtain ⟨cb, hcb, hcb1⟩ := hpb
    obtain ⟨l1, mid, l2, hdec, hmid, hpca, hpcb⟩ := filter_adjacent _ _ i ca cb hca hcb
    have hca0 : ca = (a, 0) := by
      have h2 : ca.2 = 0 := by simpa using hpca
      exact Prod.ext hca1 h2
    have hcb0 : cb = (b, 0) := by
      have h2 : cb.2 = 0 := by simpa using hpcb
      exact Prod.ext hcb1 h2
    rw [hca0, hcb0] at hdec
    obtain ⟨hxa, hyb⟩ := getElem?_decomp l1 mid l2 ((a, 0) : sensor_data × Int) (b, 0)
    rw [← hdec] at hxa hyb
    have hsa := captures_seq_index (System.init d0) (init_seq d0) es _ _ hxa
    have hsb := captures_seq_index (System.init d0) (init_seq d0) es _ _ hyb
    have hz : (System.init d0).sensor.sequence = 0 := rfl
    rw [hz] at hsa hsb
    simp only at hsa hsb
    have htot : sample_count es = l1.length + 1 + mid.length + 1 + l2.length := by
      rw [← hlen, hdec]
      simp only [List.length_append, List.length_singleton]
    refine ⟨l1, mid, l2, hdec, ?_, ?_, ?_, ?_⟩
    · intro c hc
      simpa using hmid c hc
    · rw [hsa, hsb]
      unfold UINT32_MOD; omega
    · intro hnil
      rw [hsa, hsb, hnil]
      unfold u32_add UINT32_MOD
      simp only [List.length_nil]
      omega
    · intro hbound
      rw [hsa, hsb]
      unfold UINT32_MOD at hbound ⊢
      omega
  · intro hbound
    have hstrict : List.Sorted (fun x y => x < y)
        ((received (run (System.init d0) es).2).map sensor_data.sequence) := by
      have hcs := hinv.caps_seq
      rw [hlen] at hcs
      have hid : (List.range (sample_count es)).map
          (fun k => ((System.init d0).sensor.sequence + k) % UINT32_MOD) =
          List.range (sample_count es) := by
        conv_rhs => rw [← List.map_id (List.range (sample_count es))]
        apply List.map_congr_left
        intro k hk
        have hk2 : k < sample_count es := List.mem_range.mp hk
        have hz : (System.init d0).sensor.sequence = 0 := rfl
        rw [hz, Nat.zero_add, id]
        exact Nat.mod_eq_of_lt (by omega)
      rw [hid] at hcs
      have hsub1 : (received (run (System.init d0) es).2).Sublist
          (published (run (System.init d0) es).2) := by
        rw [hpub]
        exact List.sublist_append_left _ _
      have hsub2 : ((published (run (System.init d0) es).2).map sensor_data.sequence).Sublist
          ((captures (run (System.init d0) es).2).map (fun c => c.1.sequence)) := by
        simp only [published, List.map_map]
        exact (List.filter_sublist _).map _
      have hsub := (hsub1.map sensor_data.sequence).trans hsub2
      rw [hcs] at hsub
      exact List.Pairwise.sublist hsub (List.pairwise_lt_range _)
    exact ⟨hstrict, List.Pairwise.imp (fun h => Nat.le_of_lt h) hstrict⟩

theorem C7_received_sequences_witness :
    sample_count [Event.sample 0 0 0, Event.sample 1000 1000 1000, Event.receive,
      Event.receive] ≤ UINT32_MOD ∧
    List.Sorted (fun x y => x ≤ y)
      ((received (run (System.init sensor_data.zero)
        [Event.sample 0 0 0, Event.sample 1000 1000 1000, Event.receive,
         Event.receive]).2).map sensor_data.sequence) :=
  ⟨by decide,
    ((C7_received_sequences sensor_data.zero
      [Event.sample 0 0 0, Event.sample 1000 1000 1000, Event.receive,
       Event.receive]).2.2 (by decide)).2⟩

/-- C8: one pass of the sampler loop, from any sampler state and any queue
state, makes exactly one publish attempt, of the reading
captured in this pass; the counter advances by 1 (modulo 2^32) whatever the
result; the pass ends with the one sleep of `SAMPLE_INTERVAL_MS = 1000` ms
whatever the result.  If the attempt returns the full result, the queue is
returned unchanged (same contents and count, so the reading was not inserted).
The reading is not re-submitted: what a later pass does never depends on the
reading retained in the local `data`, and in any continuation with fewer than
2^32 sampler passes every publish attempt carries a sequence number different
from the dropped reading's. -/
theorem C8_drop_without_retry (st : sensor_thread) (q : k_msgq) (t1 t2 t3 : Nat) :
    captures (sensor_thread_iteration t1 t2 t3 st q).2.2 =
        [(read_sensors st.data st.sequence t1 t2 t3,
          (k_msgq_put q (read_sensors st.data st.sequence t1 t2 t3)).2)] ∧
      (sensor_thread_iteration t1 t2 t3 st q).1.sequence = u32_add st.sequence 1 ∧
      (sensor_thread_iteration t1 t2 t3 st q).2.2.getLast? =
        some (Action.msleep SAMPLE_INTERVAL_MS) ∧
      (sensor_thread_iteration t1 t2 t3 st q).2.2.filter
          (fun a => a matches Action.msleep _) = [Action.msleep 1000] ∧
      ((k_msgq_put q (read_sensors st.data st.sequence t1 t2 t3)).2 ≠ 0 →
        (sensor_thread_iteration t1 t2 t3 st q).2.1 = q ∧
        (sensor_thread_iteration t1 t2 t3 st q).2.1.contents = q.contents ∧
        (sensor_thread_iteration t1 t2 t3 st q).2.1.used_msgs = q.used_msgs ∧
        (read_sensors st.data st.sequence t1 t2 t3 ∉ q.contents →
          read_sensors st.data st.sequence t1 t2 t3 ∉
            (sensor_thread_iteration t1 t2 t3 st q).2.1.contents)) ∧
      (∀ d u1 u2 u3 q2,
        sensor_thread_iteration u1 u2 u3
            { (sensor_thread_iteration t1 t2 t3 st q).1 with data := d } q2 =
          sensor_thread_iteration u1 u2 u3 (sensor_thread_iteration t1 t2 t3 st q).1 q2) ∧
      (∀ q2 es, sample_count es < UINT32_MOD →
        ∀ c ∈ captures (run { sensor := (sensor_thread_iteration t1 t2 t3 st q).1,
                               msgq := q2 } es).2,
          c.1.sequence ≠ st.sequence) := by
  refine ⟨?_, rfl, ?_, ?_, ?_, ?_, ?_⟩
  · simp only [sensor_thread_iteration]
    split <;> simp [captures]
  · simp only [sensor_thread_iteration]
    split <;> simp
  · simp only [sensor_thread_iteration]
    split <;> simp [SAMPLE_INTERVAL_MS]
  · intro hfull
    have hq : (sensor_thread_iteration t1 t2 t3 st q).2.1 = q := by
      simp only [sensor_thread_iteration, k_msgq_put] at hfull ⊢
      split
      · next hlt => simp [hlt] at hfull
      · rfl
    rw [hq]
    exact ⟨rfl, rfl, rfl, fun h => h⟩
  · intro d u1 u2 u3 q2
    rfl
  · intro q2 es hcount c hc
    exact later_captures_differ _ st.sequence rfl es hcount c hc

theorem C8_drop_without_retry_witness :
    (k_msgq_put (put_all sensor_msgq (List.replicate 10 sensor_data.zero)).1
      (read_sensors sensor_data.zero 10 10000 10000 10000)).2 ≠ 0 ∧
    (sensor_thread_iteration 10000 10000 10000 { data := sensor_data.zero, sequence := 10 }
      (put_all sensor_msgq (List.replicate 10 sensor_data.zero)).1).2.1 =
      (put_all sensor_msgq (List.replicate 10 sensor_data.zero)).1 :=
  ⟨by decide,
    ((C8_drop_without_retry { data := sensor_data.zero, sequence := 10 }
      (put_all sensor_msgq (List.replicate 10 sensor_data.zero)).1 10000 10000 10000).2.2.2.2.1
      (by decide)).1⟩

end Datalogger
